import Mathlib

/-!
# Verification of the AF_XDP packet replicator

A shallow embedding, in Lean, of the pure logic of the AF_XDP zero-copy
packet replicator (`PacketReplicator.cpp`, `AFXDPSocket.cpp`), together with
theorems settling the behavioural claims of the specification: the destination
registry and the UDP control protocol, AF_XDP socket creation, the TX
back-pressure and completion accounting, the direct transmit path, UDP packet
synthesis with the IPv4 header checksum, and the RX receive/recycle cycle.

Machine integers are modelled as `Nat`; byte strings as `List Nat` with each
element below 256.  The host is little-endian (the code is x86-specific: it
uses `__builtin_ia32_pause`), which fixes how multi-byte loads and stores in
the source map to byte lists here.
-/

namespace AfXdpReplicator

/-! ## Dotted-quad IPv4 text

`PacketReplicator` stores destination IPs as text (`std::string`) and converts
with `inet_ntoa` / `inet_aton`.  A dotted-quad string is modelled as the list
of its dot-separated groups, each group being the list of its decimal digit
values (most significant first).  `inet_ntoa` and `inet_aton` are libc, not
repository code; they are modelled from their documented behaviour. -/

/-- Decimal digit expansion of a byte, most significant digit first, as
printed by `inet_ntoa`: no leading zeros, and `0` prints as the single digit
zero.  Modelled from the spec: `inet_ntoa` renders each byte of the address in
decimal, joined by dots. -/
def decDigits (n : Nat) : List Nat :=
  if n = 0 then [0] else (Nat.digits 10 n).reverse

/-- The dotted-quad text produced by `PacketReplicator::formatIpAddress`
(PacketReplicator.cpp lines 1036-1040) for an address whose four bytes, in
memory (= network) order, are `b0.b1.b2.b3`. -/
def ntoaGroups (b0 b1 b2 b3 : Nat) : List (List Nat) :=
  [decDigits b0, decDigits b1, decDigits b2, decDigits b3]

/-- Numeric value of one dot-separated group read as decimal digits. -/
def groupVal (g : List Nat) : Nat := Nat.ofDigits 10 g.reverse

/-- A group `inet_aton` accepts as one byte of a dotted quad, restricted to
canonical decimal form: nonempty, all decimal digits, no leading zero (libc
would read a leading zero as octal; `inet_ntoa` never prints one), and value
at most 255.  Modelled from the spec of `inet_aton`. -/
def validGroup (g : List Nat) : Bool :=
  !g.isEmpty && g.all (· < 10) && (g.head? = some 0 → g = [0]) && groupVal g ≤ 255

/-- `inet_aton` on a four-group dotted quad: the four bytes of the address in
network order, or `none` when the text is rejected.  Modelled from the spec of
`inet_aton` (restricted to the canonical four-part decimal form). -/
def atonGroups (s : List (List Nat)) : Option (Nat × Nat × Nat × Nat) :=
  match s with
  | [g0, g1, g2, g3] =>
    if validGroup g0 && validGroup g1 && validGroup g2 && validGroup g3 then
      some (groupVal g0, groupVal g1, groupVal g2, groupVal g3)
    else none
  | _ => none

/-! ## The destination registry -/

/-- `PacketReplicator::Destination` (PacketReplicator.hpp): the textual IP and
the UDP port in host order.  The cached `sockaddr_in` is determined by these
two fields and is not carried separately. -/
structure Destination where
  ip : List (List Nat)
  port : Nat
deriving DecidableEq

/-- The `Destination` constructor (PacketReplicator.cpp lines 60-68): runs
`inet_aton` on the text and throws `std::invalid_argument` when it fails;
`none` models the throw. -/
def mkDestination (ip : List (List Nat)) (port : Nat) : Option Destination :=
  match atonGroups ip with
  | some _ => some { ip := ip, port := port }
  | none => none

/-- The registry `destinations_` is a `std::set<Destination>`: a finite set
(the C++ ordering only fixes iteration order, which is snapshotted separately
for LIST). -/
abbrev Registry := Finset Destination

/-- `PacketReplicator::addDestination` (PacketReplicator.cpp lines 290-300):
`destinations_.insert(dest)`.  The ARP priming side effect touches no
registry state. -/
def addDestination (reg : Registry) (d : Destination) : Registry :=
  insert d reg

/-- `PacketReplicator::removeDestination` (PacketReplicator.cpp lines
302-309): `destinations_.erase(dest)`. -/
def removeDestination (reg : Registry) (d : Destination) : Registry :=
  reg.erase d

/-! ## The control protocol

`PacketReplicator::processControlMessage` (PacketReplicator.cpp lines
943-1026).  A control message is its byte list.  The ADD/REMOVE branches act
on the registry set; the LIST branch serializes the snapshot vector returned
by `getDestinations()`, so it is modelled as a function of that list. -/

/-- Opcode byte of `CTRL_ADD_DESTINATION` (PacketReplicator.hpp line 50). -/
def CTRL_ADD_DESTINATION : Nat := 1

/-- Opcode byte of `CTRL_REMOVE_DESTINATION` (PacketReplicator.hpp line 51). -/
def CTRL_REMOVE_DESTINATION : Nat := 2

/-- Opcode byte of `CTRL_LIST_DESTINATIONS` (PacketReplicator.hpp line 52). -/
def CTRL_LIST_DESTINATIONS : Nat := 3

/-- The dotted-quad text `formatIpAddress` produces for bytes 1..4 of an
ADD/REMOVE message: the four raw bytes are `memcpy`ed into a `uint32_t` and
`inet_ntoa` prints them in memory order, i.e. in message order. -/
def msgIpText (msg : List Nat) : List (List Nat) :=
  ntoaGroups (msg.getD 1 0) (msg.getD 2 0) (msg.getD 3 0) (msg.getD 4 0)

/-- The host-order port of an ADD/REMOVE message: bytes 5 (high) and 6 (low)
are network byte order; `ntohs` of the little-endian load gives
`msg[5] * 256 + msg[6]`. -/
def msgPort (msg : List Nat) : Nat :=
  msg.getD 5 0 * 256 + msg.getD 6 0

/-- The `CTRL_ADD_DESTINATION` branch of `processControlMessage`
(PacketReplicator.cpp lines 956-978): with at least 7 bytes, build the
destination and insert it, replying `[1]`, or reply `[0]` if the constructor
throws; with fewer than 7 bytes, no reply and no change. -/
def processAddMessage (msg : List Nat) (reg : Registry) :
    List Nat × Registry :=
  if 7 ≤ msg.length then
    match mkDestination (msgIpText msg) (msgPort msg) with
    | some d => ([1], addDestination reg d)
    | none => ([0], reg)
  else ([], reg)

/-- The `CTRL_REMOVE_DESTINATION` branch of `processControlMessage`
(PacketReplicator.cpp lines 980-1002). -/
def processRemoveMessage (msg : List Nat) (reg : Registry) :
    List Nat × Registry :=
  if 7 ≤ msg.length then
    match mkDestination (msgIpText msg) (msgPort msg) with
    | some d => ([1], removeDestination reg d)
    | none => ([0], reg)
  else ([], reg)

/-- The 6-byte wire encoding of one destination in a LIST reply
(PacketReplicator.cpp lines 1009-1015): the four bytes of
`parseIpAddress(dest.ip_address)` in network order followed by the two bytes
of `htons(dest.port)`.  Registry members always parse (their constructor
validated the text); the `[0,0,0,0]` arm is the unreachable default. -/
def encodeDestination (d : Destination) : List Nat :=
  (match atonGroups d.ip with
   | some (b0, b1, b2, b3) => [b0, b1, b2, b3]
   | none => [0, 0, 0, 0]) ++ [d.port / 256 % 256, d.port % 256]

/-- The `CTRL_LIST_DESTINATIONS` branch of `processControlMessage`
(PacketReplicator.cpp lines 1004-1017), as a function of the snapshot vector
returned by `getDestinations()`: one count byte
`static_cast<uint8_t>(destinations.size())` followed by the encoding of every
destination in snapshot order. -/
def listDestinationsResponse (dests : List Destination) : List Nat :=
  dests.length % 256 :: dests.flatMap encodeDestination

/-! ## AF_XDP socket creation -/

/-- `AFXDPSocket::TX_BATCH_SIZE` (AFXDPSocket.hpp line 44). -/
def TX_BATCH_SIZE : Nat := 64

/-- `TX_FRAMES` (AFXDPSocket.cpp line 42) = `DEFAULT_TX_FRAMES`
(AFXDPSocket.hpp line 45). -/
def TX_FRAMES : Nat := 2048

/-- `RX_FRAMES` (AFXDPSocket.cpp line 43) = `DEFAULT_RX_FRAMES`
(AFXDPSocket.hpp line 46). -/
def RX_FRAMES : Nat := 2048

/-- The fields of a freshly constructed `AFXDPSocket` that the constructor
initializes (AFXDPSocket.cpp lines 222-253). -/
structure SocketInit where
  chunk_size : Nat
  headroom : Nat
  tx_frames : Nat
  rx_frames : Nat
  prev_umem_tx_frame : Nat
  cached_completions : Nat
  outstanding_tx : Nat
  umem_buffer_size : Nat
deriving DecidableEq

/-- The `AFXDPSocket` constructor (AFXDPSocket.cpp lines 222-253), for
nonnegative `int` arguments.  The only frame-size validation is
`(frameSize & (frameSize - 1)) != 0`; an under-provisioned frame count is
bumped to `tx + rx` frames with a warning, and the UMEM buffer size is
`frameSize * frameCount`.  `.error` models the `std::invalid_argument`
throw. -/
def mkAFXDPSocket (frameSize frameCount headroom : Nat) :
    Except String SocketInit :=
  if frameSize &&& (frameSize - 1) ≠ 0 then
    .error "Frame size must be a power of 2"
  else
    .ok { chunk_size := frameSize, headroom := headroom,
          tx_frames := TX_FRAMES, rx_frames := RX_FRAMES,
          prev_umem_tx_frame := 0, cached_completions := 0,
          outstanding_tx := 0,
          umem_buffer_size := frameSize *
            (if frameCount < TX_FRAMES + RX_FRAMES then TX_FRAMES + RX_FRAMES
             else frameCount) }

/-! ## TX submission and completion accounting

`AFXDPSocket::pollTxCompletions`, `submitTxRing` and `sendBatch`
(AFXDPSocket.cpp lines 464-516, 530-561, 600-606).  The socket fields
`outstanding_tx_` and `cached_completions_` are modelled exactly; the kernel
side of the completion ring is modelled by two ghost counts: `inflight`
(descriptors submitted to the TX ring whose completions have not yet been
posted) and `cqAvail` (completions posted but not yet peeked).  `peek`
consumes from `cqAvail`; a separate environment event `completeTx` moves
descriptors from `inflight` to `cqAvail`.  Counters are exact counts: the
`uint32_t` wraparound of the source, which would need over 2^32 frames in
flight, is outside the model. -/

/-- State of one socket's TX side, with ghost totals. -/
structure TxState where
  outstanding_tx : Nat
  cached_completions : Nat
  inflight : Nat
  cqAvail : Nat
  submittedTotal : Nat
  releasedTotal : Nat
deriving DecidableEq

/-- The zeroed TX state of a freshly constructed socket. -/
def TxState.init : TxState :=
  { outstanding_tx := 0, cached_completions := 0, inflight := 0,
    cqAvail := 0, submittedTotal := 0, releasedTotal := 0 }

/-- `AFXDPSocket::pollTxCompletions` (AFXDPSocket.cpp lines 530-561): return
early when nothing is outstanding; peek up to `tx_frames_` completions; cache
them; release the whole cache (and subtract it from `outstanding_tx_`) only
once it reaches `TX_BATCH_SIZE`. -/
def pollTxCompletions (s : TxState) : TxState :=
  if s.outstanding_tx = 0 then s
  else if min s.cqAvail TX_FRAMES = 0 then s
  else if s.cached_completions + min s.cqAvail TX_FRAMES < TX_BATCH_SIZE then
    { s with
      cached_completions := s.cached_completions + min s.cqAvail TX_FRAMES,
      cqAvail := s.cqAvail - min s.cqAvail TX_FRAMES }
  else
    { s with
      cached_completions := 0,
      cqAvail := s.cqAvail - min s.cqAvail TX_FRAMES,
      outstanding_tx := s.outstanding_tx -
        (s.cached_completions + min s.cqAvail TX_FRAMES),
      releasedTotal := s.releasedTotal +
        (s.cached_completions + min s.cqAvail TX_FRAMES) }

/-- `AFXDPSocket::submitTxRing` (AFXDPSocket.cpp lines 600-606): publish
`count` descriptors and add `count` to `outstanding_tx_`. -/
def submitTxRing (s : TxState) (count : Nat) : TxState :=
  { s with outstanding_tx := s.outstanding_tx + count,
           inflight := s.inflight + count,
           submittedTotal := s.submittedTotal + count }

/-- Environment event: the NIC finishes transmitting up to `n` in-flight
descriptors and posts their completions on the completion ring. -/
def completeTx (s : TxState) (n : Nat) : TxState :=
  { s with inflight := s.inflight - min n s.inflight,
           cqAvail := s.cqAvail + min n s.inflight }

/-- The inputs of one `sendBatch` call: the lengths of the two vectors, the
requested batch size, and the number of free TX-ring slots the
`xsk_ring_prod__reserve` call would see (reserve is all-or-nothing). -/
structure BatchArgs where
  offsetsLen : Nat
  lengthsLen : Nat
  batchSize : Nat
  ringFree : Nat
deriving DecidableEq

/-- `AFXDPSocket::sendBatch` (AFXDPSocket.cpp lines 464-516): throw if the
vectors are shorter than the batch; poll completions; refuse (return 0) when
`outstanding_tx_ > TX_FRAMES - TX_BATCH_SIZE`; clamp the batch to
`TX_BATCH_SIZE`; reserve, fill and submit, returning the submitted count. -/
def sendBatch (s : TxState) (a : BatchArgs) : Except String (Nat × TxState) :=
  if a.offsetsLen < a.batchSize ∨ a.lengthsLen < a.batchSize then
    .error "Vectors must be at least as long as batchSize"
  else if (pollTxCompletions s).outstanding_tx > TX_FRAMES - TX_BATCH_SIZE then
    .ok (0, pollTxCompletions s)
  else if min a.batchSize TX_BATCH_SIZE = 0 then
    .ok (0, pollTxCompletions s)
  else if min a.batchSize TX_BATCH_SIZE ≤ a.ringFree then
    .ok (min a.batchSize TX_BATCH_SIZE,
         submitTxRing (pollTxCompletions s) (min a.batchSize TX_BATCH_SIZE))
  else
    .ok (0, pollTxCompletions s)

/-- One step of the TX history: a socket operation or a kernel completion
event. -/
inductive TxOp where
  | submit (count : Nat)
  | poll
  | complete (n : Nat)
  | batch (a : BatchArgs)
deriving DecidableEq

/-- Apply one operation to the TX state.  A `sendBatch` that throws mutates
nothing (the throw happens before any state change in the source). -/
def txStep (s : TxState) (op : TxOp) : TxState :=
  match op with
  | .submit count => submitTxRing s count
  | .poll => pollTxCompletions s
  | .complete n => completeTx s n
  | .batch a =>
    match sendBatch s a with
    | .ok (_, s1) => s1
    | .error _ => s

/-- Run a TX history from the zeroed initial state. -/
def runTxOps (ops : List TxOp) : TxState :=
  ops.foldl txStep TxState.init

/-- Reachability invariant of the TX state: every outstanding descriptor is
in flight, posted on the completion ring, or cached, and the ghost totals
account for `outstanding_tx`. -/
def TxInv (s : TxState) : Prop :=
  s.outstanding_tx = s.inflight + s.cqAvail + s.cached_completions ∧
  s.releasedTotal ≤ s.submittedTotal ∧
  s.outstanding_tx = s.submittedTotal - s.releasedTotal

instance (s : TxState) : Decidable (TxInv s) := by
  unfold TxInv; infer_instance

/-! ## The direct per-destination transmit path

`PacketReplicator::sendToDestinationWithQueue` and `sendSinglePacketDirect`
(PacketReplicator.cpp lines 652-722).  The environment of one attempt is
whether the queue's socket is closed (making `pollTxCompletions` /
`checkOpen` throw), the length `createUdpPacket` produced (0 = failure), and
the result of `reserveTxRing(1, ...)`. -/

/-- Environment of one direct send attempt. -/
structure DirectSendEnv where
  closedSocket : Bool
  packetLen : Nat
  reserveRet : Nat
deriving DecidableEq

/-- How one per-destination send attempt was resolved. -/
inductive SendPath where
  | zeroCopySent
  | droppedPacketFail
  | droppedRingFull
  | fallbackSendto
deriving DecidableEq

/-- `PacketReplicator::sendSinglePacketDirect` (PacketReplicator.cpp lines
666-722): throws when the socket is closed (`pollTxCompletions` calls
`checkOpen`); returns `false` when `createUdpPacket` fails; when
`reserveTxRing(1, ...)` does not return 1 it requests a driver poll (if the
return was 0) and returns `false`; otherwise it fills the descriptor,
submits, and returns `true`. -/
def sendSinglePacketDirect (env : DirectSendEnv) :
    Except Unit (Bool × SendPath) :=
  if env.closedSocket then .error ()
  else if env.packetLen = 0 then .ok (false, .droppedPacketFail)
  else if env.reserveRet ≠ 1 then .ok (false, .droppedRingFull)
  else .ok (true, .zeroCopySent)

/-- `PacketReplicator::sendToDestinationWithQueue` (PacketReplicator.cpp
lines 652-664): out-of-range queue or missing socket goes to the
conventional-socket fallback, as does any exception from the direct path;
otherwise the direct path's result is returned as is.  `fallbackSendOk` is
the environment's result for `sendToDestinationFallback`. -/
def sendToDestinationWithQueue (queueId numQueues : Int)
    (socketPresent : Bool) (fallbackSendOk : Bool) (env : DirectSendEnv) :
    Bool × SendPath :=
  if queueId < 0 ∨ numQueues ≤ queueId ∨ ¬socketPresent then
    (fallbackSendOk, .fallbackSendto)
  else
    match sendSinglePacketDirect env with
    | .ok r => r
    | .error _ => (fallbackSendOk, .fallbackSendto)

/-! ## UDP packet synthesis

`PacketReplicator::createUdpPacket` (PacketReplicator.cpp lines 724-826).
A frame is its byte list.  The MAC addresses and the source IP resolved via
ARP table / interface queries (with their fallbacks) are inputs. -/

/-- One's-complement carry folding of the checksum loop
(PacketReplicator.cpp lines 806-808): `while (sum >> 16) sum = (sum &
0xFFFF) + (sum >> 16)`. -/
def fold16 (n : Nat) : Nat :=
  if n < 65536 then n
  else fold16 (n % 65536 + n / 65536)
termination_by n
decreasing_by omega

/-- Read a byte list as consecutive little-endian 16-bit words, as the
checksum loop's `uint16_t*` traversal does on x86. -/
def words16LE : List Nat → List Nat
  | b0 :: b1 :: rest => (b0 + 256 * b1) :: words16LE rest
  | _ => []

/-- The two bytes, in memory order, of a 16-bit value stored with `htons`
(network byte order); the `uint16_t` conversion truncates mod 2^16. -/
def be16 (v : Nat) : List Nat := [v / 256 % 256, v % 256]

/-- The four bytes, in network (= memory) order, of
`destination.addr.sin_addr.s_addr`: the `inet_aton` parse the `Destination`
constructor performed.  The `[0,0,0,0]` arm is the unreachable default for a
text no constructor would have accepted. -/
def destIpBytes (d : Destination) : List Nat :=
  match atonGroups d.ip with
  | some (b0, b1, b2, b3) => [b0, b1, b2, b3]
  | none => [0, 0, 0, 0]

/-- Environment of one `createUdpPacket` call: resolved destination MAC (ARP
or broadcast fallback), source MAC (interface or default fallback), source
IP bytes (interface IP or listen IP fallback, network order), and the
replicator's listen port. -/
structure PacketEnv where
  dstMac : List Nat
  srcMac : List Nat
  srcIp : List Nat
  listenPort : Nat
deriving DecidableEq

/-- The Ethernet header (PacketReplicator.cpp lines 743-767): destination
MAC, source MAC, EtherType `0x0800` in network order. -/
def ethHeaderBytes (env : PacketEnv) : List Nat :=
  env.dstMac ++ env.srcMac ++ [0x08, 0x00]

/-- The first ten IPv4 header bytes (PacketReplicator.cpp lines 769-778):
version 4 / IHL 5, TOS 0, total length `htons(20 + 8 + payloadLen)`, id
`htons(12345)`, frag_off 0, TTL 64, protocol 17. -/
def ipHdrPre (payloadLen : Nat) : List Nat :=
  [0x45, 0] ++ be16 (20 + 8 + payloadLen) ++ be16 12345 ++ [0, 0] ++ [64, 17]

/-- IPv4 header bytes 12-19: source IP then destination IP
(PacketReplicator.cpp lines 781-791). -/
def ipHdrAddrs (env : PacketEnv) (d : Destination) : List Nat :=
  env.srcIp ++ destIpBytes d

/-- The 20 IPv4 header bytes with the checksum field still zero
(`ip->check = 0`, PacketReplicator.cpp line 800). -/
def ipHeaderZeroCk (env : PacketEnv) (d : Destination) (payloadLen : Nat) :
    List Nat :=
  ipHdrPre payloadLen ++ [0, 0] ++ ipHdrAddrs env d

/-- The checksum value of the synthesized IPv4 header: one's-complement sum
of its ten 16-bit words with the checksum field zero, folded, complemented
(`ip->check = ~sum` truncated to 16 bits). -/
def ipCheckValue (env : PacketEnv) (d : Destination) (payloadLen : Nat) :
    Nat :=
  65535 - fold16 (words16LE (ipHeaderZeroCk env d payloadLen)).sum

/-- The finished 20 IPv4 header bytes: the checksum value stored
little-endian into bytes 10 and 11 (an x86 `uint16_t` store). -/
def ipHeaderBytes (env : PacketEnv) (d : Destination) (payloadLen : Nat) :
    List Nat :=
  ipHdrPre payloadLen ++
    [ipCheckValue env d payloadLen % 256, ipCheckValue env d payloadLen / 256] ++
    ipHdrAddrs env d

/-- The 8 UDP header bytes (PacketReplicator.cpp lines 811-816): source port
`htons(listen_port_)`, destination port `destination.addr.sin_port`, length
`htons(8 + payloadLen)`, checksum 0. -/
def udpHeaderBytes (env : PacketEnv) (d : Destination) (payloadLen : Nat) :
    List Nat :=
  be16 env.listenPort ++ be16 d.port ++ be16 (8 + payloadLen) ++ [0, 0]

/-- `PacketReplicator::createUdpPacket` (PacketReplicator.cpp lines
724-826): refuse (`none`, modelling return 0) when the 42 header bytes plus
the payload exceed the buffer; otherwise the full frame. -/
def createUdpPacket (env : PacketEnv) (d : Destination) (payload : List Nat)
    (bufferSize : Nat) : Option (List Nat) :=
  if 14 + 20 + 8 + payload.length > bufferSize then none
  else
    some (ethHeaderBytes env ++ ipHeaderBytes env d payload.length ++
          udpHeaderBytes env d payload.length ++ payload)

/-! ## RX receive and frame recycling

`AFXDPSocket::receive` and `recycleFrames` (AFXDPSocket.cpp lines 623-708
and 710-742).  The RX ring's available descriptors and the fill ring's free
capacity are environment inputs; `fillRing` is the ghost sequence of
addresses submitted to the fill ring. -/

/-- The RX-side socket state: the `pending_recycle_addrs_` field and the
ghost fill-ring contents. -/
structure RxState where
  pending_recycle_addrs : List Nat
  fillRing : List Nat
deriving DecidableEq

/-- `xsk_umem__extract_addr`: mask off the 16 upper offset bits of a UMEM
address (aligned-mode addresses pass through unchanged). -/
def extractAddr (a : Nat) : Nat := a % 2 ^ 48

/-- `AFXDPSocket::receive` (AFXDPSocket.cpp lines 623-708): peek up to
`maxEntries` descriptors from the RX ring (`descs`), record each raw address
for recycling (overwriting the previous pending list) when anything was
received, and hand `(extract_addr(addr), len)` pairs to the caller. -/
def receive (s : RxState) (descs : List (Nat × Nat)) (maxEntries : Nat) :
    RxState × List (Nat × Nat) :=
  if (descs.take maxEntries).isEmpty then (s, [])
  else
    ({ s with pending_recycle_addrs := (descs.take maxEntries).map Prod.fst },
     (descs.take maxEntries).map (fun p => (extractAddr p.1, p.2)))

/-- `AFXDPSocket::recycleFrames` (AFXDPSocket.cpp lines 710-742): nothing to
do when the pending list is empty; reserve fill-ring slots for the whole
list (`xsk_ring_prod__reserve` is all-or-nothing: `fqSpace` free slots give
the full count or 0); on success submit every extracted address and poke the
fill ring when `needsWakeup` is set; in every case clear the pending list.
The `Bool` result records whether the fill ring was poked. -/
def recycleFrames (s : RxState) (fqSpace : Nat) (needsWakeup : Bool) :
    RxState × Bool :=
  if s.pending_recycle_addrs.isEmpty then (s, false)
  else if s.pending_recycle_addrs.length ≤ fqSpace then
    ({ pending_recycle_addrs := [],
       fillRing := s.fillRing ++
         (s.pending_recycle_addrs.take s.pending_recycle_addrs.length).map
           extractAddr },
     needsWakeup)
  else
    ({ s with pending_recycle_addrs := [] }, false)

/-- The frame layout the specification claims for a synthesized packet
(spec section 4.7), written from the spec's words for comparison with
`createUdpPacket`: EtherType IPv4; IPv4 version 4 / IHL 5 (byte `0x45`),
TOS 0, total length `28 + payload`, identification 12345, frag_off 0,
TTL 64, protocol UDP (17), source IP as resolved, destination IP from the
registry entry; UDP source port = listen port, destination port = the
destination's port, length `8 + payload`, checksum 0; payload verbatim.
16-bit fields are read big-endian from their two bytes. -/
def SynthesizedFrameSpec (env : PacketEnv) (d : Destination)
    (payload : List Nat) (frame : List Nat) : Prop :=
  frame.length = 42 + payload.length ∧
  frame.getD 12 0 = 8 ∧ frame.getD 13 0 = 0 ∧
  frame.getD 14 0 = 69 ∧ frame.getD 15 0 = 0 ∧
  frame.getD 16 0 * 256 + frame.getD 17 0 = 28 + payload.length ∧
  frame.getD 18 0 * 256 + frame.getD 19 0 = 12345 ∧
  frame.getD 20 0 = 0 ∧ frame.getD 21 0 = 0 ∧
  frame.getD 22 0 = 64 ∧ frame.getD 23 0 = 17 ∧
  (frame.drop 26).take 4 = env.srcIp ∧
  (frame.drop 30).take 4 = destIpBytes d ∧
  frame.getD 34 0 * 256 + frame.getD 35 0 = env.listenPort ∧
  frame.getD 36 0 * 256 + frame.getD 37 0 = d.port ∧
  frame.getD 38 0 * 256 + frame.getD 39 0 = 8 + payload.length ∧
  frame.getD 40 0 = 0 ∧ frame.getD 41 0 = 0 ∧
  frame.drop 42 = payload

/-! ## Concrete sample values used by witnesses and counterexamples -/

/-- The destination 10.0.0.1:9000. -/
def sampleDest : Destination :=
  { ip := ntoaGroups 10 0 0 1, port := 9000 }

/-- 256 distinct destinations: 10.0.0.1 with ports 9000..9255. -/
def manyDests : List Destination :=
  (List.range 256).map fun i => { ip := ntoaGroups 10 0 0 1, port := 9000 + i }

/-- A concrete packet-synthesis environment. -/
def samplePacketEnv : PacketEnv :=
  { dstMac := [1, 2, 3, 4, 5, 6], srcMac := [7, 8, 9, 10, 11, 12],
    srcIp := [10, 0, 0, 5], listenPort := 9000 }

/-- The destination 10.0.0.20:9100. -/
def sampleDest20 : Destination :=
  { ip := ntoaGroups 10 0 0 20, port := 9100 }

/-- A payload of 65536 zero bytes: it fits a 70000-byte buffer but
overflows the 16-bit IPv4/UDP length fields. -/
def bigPayload : List Nat := List.replicate 65536 0

/-! ## Helper lemmas -/

/-- The four facts about the carry-folding loop needed for checksum
correctness: the result is 16 bits, bounded by the input, congruent to the
input modulo 65535, and positive when the input is. -/
theorem fold16_spec (n : Nat) :
    fold16 n < 65536 ∧ fold16 n ≤ n ∧ 65535 ∣ (n - fold16 n) ∧
      (0 < n → 0 < fold16 n) := by
  induction n using Nat.strong_induction_on with
  | _ n ih =>
    rw [fold16]
    split
    · exact ⟨by omega, Nat.le_refl n, by simp, fun h => h⟩
    · rename_i hge
      have hlt : n % 65536 + n / 65536 < n := by omega
      obtain ⟨ih1, ih2, ⟨a, ha⟩, ih4⟩ := ih _ hlt
      refine ⟨ih1, by omega, ⟨n / 65536 + a, by omega⟩, fun _ => ih4 (by omega)⟩

/-- A positive multiple of 65535 folds to exactly 65535. -/
theorem fold16_eq_ffff (x : Nat) (hpos : 0 < x) (hdvd : 65535 ∣ x) :
    fold16 x = 65535 := by
  obtain ⟨h1, h2, ⟨a, ha⟩, h4⟩ := fold16_spec x
  obtain ⟨b, hb⟩ := hdvd
  have hfpos : 0 < fold16 x := h4 hpos
  omega

/-- Reading little-endian words distributes over an append at an even
boundary. -/
theorem words16LE_append : ∀ (A B : List Nat), A.length % 2 = 0 →
    words16LE (A ++ B) = words16LE A ++ words16LE B
  | [], _, _ => rfl
  | [a], B, h => by simp at h
  | a :: b :: rest, B, h => by
    have hr : rest.length % 2 = 0 := by simp at h; omega
    simp only [List.cons_append, words16LE, List.append_eq]
    rw [words16LE_append rest B hr]

/-- A power of two shares no bit with its predecessor. -/
theorem two_pow_land_pred (k : Nat) : 2 ^ k &&& (2 ^ k - 1) = 0 := by
  apply Nat.eq_of_testBit_eq
  intro i
  rw [Nat.testBit_and, Nat.testBit_two_pow, Nat.testBit_two_pow_sub_one,
    Nat.zero_testBit]
  by_cases h : k = i
  · subst h
    simp
  · simp [h]

/-- The constructor's test `(frameSize & (frameSize - 1)) == 0` holds exactly
for zero and the powers of two. -/
theorem land_pred_eq_zero_iff (n : Nat) :
    n &&& (n - 1) = 0 ↔ n = 0 ∨ ∃ k, n = 2 ^ k := by
  induction n using Nat.strong_induction_on with
  | _ n ih =>
    rcases Nat.lt_or_ge n 2 with h2 | h2
    · interval_cases n
      · simp
      · constructor
        · intro _
          exact Or.inr ⟨0, rfl⟩
        · intro _
          decide
    · have hdiv : (n &&& (n - 1)) / 2 = n / 2 &&& (n - 1) / 2 :=
        Nat.and_div_two
      have hmod : (n &&& (n - 1)) % 2 = 0 := by
        have hiff := @Nat.and_mod_two_eq_one n (n - 1)
        omega
      rcases Nat.even_or_odd n with he | ho
      · obtain ⟨m, hm⟩ := he
        have hm1 : 1 ≤ m := by omega
        have hd1 : n / 2 = m := by omega
        have hd2 : (n - 1) / 2 = m - 1 := by omega
        rw [hd1, hd2] at hdiv
        have hih := ih m (by omega)
        constructor
        · intro h0
          have hm0 : m &&& (m - 1) = 0 := by omega
          rcases (hih.mp hm0) with hz | ⟨k, hk⟩
          · omega
          · exact Or.inr ⟨k + 1, by rw [pow_succ]; omega⟩
        · rintro (hz | ⟨k, hk⟩)
          · omega
          · match k, hk with
            | 0, hk => exfalso; norm_num at hk; omega
            | k + 1, hk =>
              have hmk : m = 2 ^ k := by
                rw [pow_succ] at hk; omega
              have hz : m &&& (m - 1) = 0 := by
                rw [hmk]; exact two_pow_land_pred k
              omega
      · obtain ⟨m, hm⟩ := ho
        have hm1 : 1 ≤ m := by omega
        have hd1 : n / 2 = m := by omega
        have hd2 : (n - 1) / 2 = m := by omega
        rw [hd1, hd2, Nat.and_self] at hdiv
        constructor
        · intro h0
          exfalso
          omega
        · rintro (hz | ⟨k, hk⟩)
          · omega
          · match k, hk with
            | 0, hk => exfalso; norm_num at hk; omega
            | k + 1, hk =>
              exfalso
              rw [pow_succ] at hk
              omega

/-- Parsing a printed byte recovers its value. -/
theorem groupVal_decDigits (b : Nat) : groupVal (decDigits b) = b := by
  unfold groupVal decDigits
  split
  · simp [Nat.ofDigits]
    omega
  · rw [List.reverse_reverse, Nat.ofDigits_digits]

/-- A printed byte is a group `inet_aton` accepts. -/
theorem validGroup_decDigits (b : Nat) (hb : b ≤ 255) :
    validGroup (decDigits b) = true := by
  by_cases hb0 : b = 0
  · subst hb0
    decide
  · have hne : Nat.digits 10 b ≠ [] := Nat.digits_ne_nil_iff_ne_zero.mpr hb0
    unfold validGroup
    rw [decDigits, if_neg hb0]
    have h1 : ((Nat.digits 10 b).reverse.isEmpty = false) := by
      simp [List.isEmpty_iff, hne]
    have h2 : (Nat.digits 10 b).reverse.all (· < 10) = true := by
      rw [List.all_eq_true]
      intro d hd
      rw [List.mem_reverse] at hd
      simpa using Nat.digits_lt_base (by norm_num) hd
    have h3 : (Nat.digits 10 b).getLast? ≠ some 0 := by
      rw [List.getLast?_eq_getLast_of_ne_nil hne]
      intro hcon
      have := Nat.getLast_digit_ne_zero 10 hb0
      simp at hcon
      exact this hcon
    have h4 : groupVal ((Nat.digits 10 b).reverse) = b := by
      have := groupVal_decDigits b
      rw [decDigits, if_neg hb0] at this
      exact this
    simp [h1, h2, h3, h4, hb]

/-- `inet_aton` inverts `inet_ntoa` on byte-valued quads. -/
theorem atonGroups_ntoaGroups (b0 b1 b2 b3 : Nat)
    (h0 : b0 ≤ 255) (h1 : b1 ≤ 255) (h2 : b2 ≤ 255) (h3 : b3 ≤ 255) :
    atonGroups (ntoaGroups b0 b1 b2 b3) = some (b0, b1, b2, b3) := by
  simp only [ntoaGroups, atonGroups]
  rw [validGroup_decDigits b0 h0, validGroup_decDigits b1 h1,
    validGroup_decDigits b2 h2, validGroup_decDigits b3 h3]
  simp [groupVal_decDigits]

/-- Every destination encodes to exactly six bytes on the LIST wire. -/
theorem encodeDestination_length (d : Destination) :
    (encodeDestination d).length = 6 := by
  unfold encodeDestination
  rcases h : atonGroups d.ip with - | ⟨b0, b1, b2, b3⟩ <;> simp

/-- Total length of the serialized destination block. -/
theorem flatMap_encode_length (dests : List Destination) :
    (dests.flatMap encodeDestination).length = 6 * dests.length := by
  induction dests with
  | nil => simp
  | cons d tl ihd =>
    simp [List.flatMap_cons, encodeDestination_length, ihd]
    omega

/-- The six bytes at offset `6 * i` of the serialized block are the
encoding of the `i`-th destination. -/
theorem flatMap_encode_slice : ∀ (dests : List Destination) (i : Nat)
    (hi : i < dests.length),
    ((dests.flatMap encodeDestination).drop (6 * i)).take 6 =
      encodeDestination (dests.get ⟨i, hi⟩)
  | d :: tl, 0, _ => by
    simp only [List.flatMap_cons, Nat.mul_zero, List.drop_zero]
    rw [List.take_append_of_le_length (by rw [encodeDestination_length])]
    simp [List.take_of_length_le, encodeDestination_length]
  | d :: tl, i + 1, hi => by
    simp only [List.flatMap_cons]
    have hstep : 6 * (i + 1) = (encodeDestination d).length + 6 * i := by
      rw [encodeDestination_length]; omega
    rw [hstep, List.drop_append]
    exact flatMap_encode_slice tl i (by simpa using hi)

/-! ## Claim C3: registry add/remove algebra -/

/-- C3 counterexample: with `d` already in the registry, `add(d); remove(d)`
does not restore the prior state — the `std::set` insert is a no-op and the
erase then removes the pre-existing element, leaving the empty registry. -/
theorem add_remove_pair_cex :
    removeDestination (addDestination {sampleDest} sampleDest) sampleDest ≠
      ({sampleDest} : Registry) := by
  have h1 : addDestination {sampleDest} sampleDest = {sampleDest} := by
    unfold addDestination
    exact Finset.insert_eq_self.mpr (Finset.mem_singleton_self _)
  rw [h1]
  unfold removeDestination
  rw [Finset.erase_singleton]
  intro h
  have hmem := Finset.mem_singleton_self sampleDest
  rw [← h] at hmem
  exact Finset.not_mem_empty _ hmem

/-- C3 amended: `add(d); remove(d)` equals a plain `remove(d)` and restores
the registry exactly when `d` was absent; `add` and `remove` are
idempotent. -/
theorem registry_algebra (reg : Registry) (d : Destination) :
    (d ∉ reg → removeDestination (addDestination reg d) d = reg) ∧
    removeDestination (addDestination reg d) d = removeDestination reg d ∧
    addDestination (addDestination reg d) d = addDestination reg d ∧
    removeDestination (removeDestination reg d) d =
      removeDestination reg d := by
  unfold addDestination removeDestination
  exact ⟨fun h => Finset.erase_insert h, Finset.erase_insert_eq_erase reg d,
    Finset.insert_idem d reg, Finset.erase_idem⟩

/-- C3 witness: the amended theorem applied to the empty registry. -/
theorem registry_algebra_witness :
    sampleDest ∉ (∅ : Registry) ∧
    removeDestination (addDestination ∅ sampleDest) sampleDest =
      (∅ : Registry) :=
  ⟨Finset.not_mem_empty _,
   (registry_algebra ∅ sampleDest).1 (Finset.not_mem_empty _)⟩

/-! ## Claim C2: frame-size validation at socket creation -/

/-- C2 counterexample: 1024 is a power of two smaller than 2048, yet the
constructor accepts it — no `≥ 2048` bound is enforced. -/
theorem frame_size_1024_accepted_cex :
    mkAFXDPSocket 1024 4096 0 =
      .ok { chunk_size := 1024, headroom := 0, tx_frames := 2048,
            rx_frames := 2048, prev_umem_tx_frame := 0,
            cached_completions := 0, outstanding_tx := 0,
            umem_buffer_size := 1024 * 4096 } ∧
    1024 < 2048 ∧ (∃ k : Nat, 1024 = 2 ^ k) :=
  ⟨rfl, by norm_num, ⟨10, by norm_num⟩⟩

/-- C2 amended: creation throws the invalid-frame-size error exactly when
the frame size is neither zero nor a power of two (the `≥ 2048` bound of the
claim is not enforced), and on success the counters are zeroed and the UMEM
sized `frameSize * max(frameCount, tx+rx)`. -/
theorem mkAFXDPSocket_power_of_two (frameSize frameCount headroom : Nat) :
    ((∃ e, mkAFXDPSocket frameSize frameCount headroom = .error e) ↔
      ¬(frameSize = 0 ∨ ∃ k, frameSize = 2 ^ k)) ∧
    ∀ s, mkAFXDPSocket frameSize frameCount headroom = .ok s →
      s.chunk_size = frameSize ∧ s.headroom = headroom ∧
      s.tx_frames = TX_FRAMES ∧ s.rx_frames = RX_FRAMES ∧
      s.prev_umem_tx_frame = 0 ∧ s.cached_completions = 0 ∧
      s.outstanding_tx = 0 ∧
      s.umem_buffer_size =
        frameSize * max frameCount (TX_FRAMES + RX_FRAMES) := by
  constructor
  · constructor
    · rintro ⟨e, he⟩
      rw [← land_pred_eq_zero_iff]
      intro h0
      unfold mkAFXDPSocket at he
      rw [if_neg (by omega)] at he
      cases he
    · intro hnp
      refine ⟨"Frame size must be a power of 2", ?_⟩
      unfold mkAFXDPSocket
      rw [if_pos (by rw [ne_eq, land_pred_eq_zero_iff]; exact hnp)]
  · intro s hs
    unfold mkAFXDPSocket at hs
    by_cases hland : frameSize &&& (frameSize - 1) ≠ 0
    · rw [if_pos hland] at hs
      cases hs
    · rw [if_neg hland] at hs
      injection hs with hs
      subst hs
      refine ⟨rfl, rfl, rfl, rfl, rfl, rfl, rfl, ?_⟩
      show frameSize *
          (if frameCount < TX_FRAMES + RX_FRAMES then TX_FRAMES + RX_FRAMES
           else frameCount) = _
      rcases Nat.lt_or_ge frameCount (TX_FRAMES + RX_FRAMES) with h | h
      · rw [if_pos h, Nat.max_eq_right (by omega)]
      · rw [if_neg (by omega), Nat.max_eq_left (by omega)]

/-- C2 witness: the amended theorem applied to frame size 2048 and an
under-provisioned frame count of 10. -/
theorem mkAFXDPSocket_power_of_two_witness :
    ({ chunk_size := 2048, headroom := 0, tx_frames := 2048,
       rx_frames := 2048, prev_umem_tx_frame := 0, cached_completions := 0,
       outstanding_tx := 0, umem_buffer_size := 2048 * 4096 } :
        SocketInit).outstanding_tx = 0 ∧
    ({ chunk_size := 2048, headroom := 0, tx_frames := 2048,
       rx_frames := 2048, prev_umem_tx_frame := 0, cached_completions := 0,
       outstanding_tx := 0, umem_buffer_size := 2048 * 4096 } :
        SocketInit).umem_buffer_size =
      2048 * max 10 (TX_FRAMES + RX_FRAMES) := by
  have h := (mkAFXDPSocket_power_of_two 2048 10 0).2
    { chunk_size := 2048, headroom := 0, tx_frames := 2048,
      rx_frames := 2048, prev_umem_tx_frame := 0, cached_completions := 0,
      outstanding_tx := 0, umem_buffer_size := 2048 * 4096 } rfl
  exact ⟨h.2.2.2.2.2.2.1, h.2.2.2.2.2.2.2⟩

/-! ## Claim C1: the LIST control response -/

/-- C1 counterexample: a registry snapshot of 256 distinct destinations is
serialized whole — the count byte is `256 mod 256 = 0`, not 255, and all 256
pairs follow (response length `1 + 6*256`). -/
theorem list_no_truncation_cex :
    256 ≤ manyDests.length ∧ manyDests.Nodup ∧
    (listDestinationsResponse manyDests).head? = some 0 ∧
    (listDestinationsResponse manyDests).length = 1 + 6 * 256 ∧
    ¬((listDestinationsResponse manyDests).head? = some 255 ∧
      (listDestinationsResponse manyDests).length = 1 + 6 * 255) := by
  have hlen : manyDests.length = 256 := by simp [manyDests]
  have hhead : (listDestinationsResponse manyDests).head? = some 0 := by
    simp [listDestinationsResponse, hlen]
  have hrlen : (listDestinationsResponse manyDests).length = 1 + 6 * 256 := by
    show (manyDests.length % 256 :: manyDests.flatMap encodeDestination).length = _
    rw [List.length_cons, flatMap_encode_length, hlen]
  refine ⟨by omega, ?_, hhead, hrlen, ?_⟩
  · apply List.Nodup.map _ (List.nodup_range 256)
    intro a b hab
    simpa using hab
  · rintro ⟨h255, -⟩
    rw [hhead] at h255
    simp at h255

/-- C1 amended: the LIST response is one count byte equal to the number of
destinations modulo 256 (equal to the exact count only below 256), followed
by the 6-byte `(ip_be, port_be)` encoding of every destination in snapshot
order — no truncation to the first 255 occurs. -/
theorem listResponse_reports_all (dests : List Destination) (i : Nat)
    (hi : i < dests.length) :
    (listDestinationsResponse dests).head? = some (dests.length % 256) ∧
    (dests.length ≤ 255 →
      (listDestinationsResponse dests).head? = some dests.length) ∧
    (listDestinationsResponse dests).length = 1 + 6 * dests.length ∧
    ((listDestinationsResponse dests).drop (1 + 6 * i)).take 6 =
      encodeDestination (dests.get ⟨i, hi⟩) := by
  refine ⟨rfl, ?_, ?_, ?_⟩
  · intro hle
    have hmod : dests.length % 256 = dests.length := Nat.mod_eq_of_lt (by omega)
    show some (dests.length % 256) = _
    rw [hmod]
  · show (dests.length % 256 :: dests.flatMap encodeDestination).length = _
    rw [List.length_cons, flatMap_encode_length]
    omega
  · show ((dests.length % 256 :: dests.flatMap encodeDestination).drop
        (1 + 6 * i)).take 6 = _
    rw [Nat.add_comm 1 (6 * i), List.drop_succ_cons]
    exact flatMap_encode_slice dests i hi

/-- C1 witness: the amended theorem applied to a one-element snapshot. -/
theorem listResponse_reports_all_witness :
    (listDestinationsResponse [sampleDest]).head? = some 1 ∧
    ((listDestinationsResponse [sampleDest]).drop 1).take 6 =
      encodeDestination sampleDest := by
  have h := listResponse_reports_all [sampleDest] 0 (by norm_num)
  exact ⟨h.2.1 (by norm_num), h.2.2.2⟩

/-! ## Claim C10: ADD control messages always succeed -/

/-- C10 confirmed: a well-formed ADD message (length at least 7, bytes below
256) always replies with the single success byte 1 and inserts the
destination — `formatIpAddress` output always re-parses, so the constructor
throw and the failure reply 0 are unreachable. -/
theorem add_message_always_ok (msg : List Nat) (reg : Registry)
    (hlen : 7 ≤ msg.length) (hbytes : ∀ b ∈ msg, b < 256) :
    processAddMessage msg reg =
      ([1], addDestination reg { ip := msgIpText msg, port := msgPort msg }) := by
  have hb : ∀ i, i < msg.length → msg.getD i 0 ≤ 255 := by
    intro i hi
    have hmem : msg.getD i 0 ∈ msg := by
      rw [List.getD_eq_getElem?_getD, List.getElem?_eq_getElem hi]
      exact List.getElem_mem hi
    have := hbytes _ hmem
    omega
  have haton : atonGroups (msgIpText msg) =
      some (msg.getD 1 0, msg.getD 2 0, msg.getD 3 0, msg.getD 4 0) := by
    unfold msgIpText
    exact atonGroups_ntoaGroups _ _ _ _ (hb 1 (by omega)) (hb 2 (by omega))
      (hb 3 (by omega)) (hb 4 (by omega))
  unfold processAddMessage mkDestination
  rw [if_pos hlen, haton]

/-- C10 witness: the ADD of 10.0.0.1:9000 (bytes `[1,10,0,0,1,35,40]`) into
the empty registry replies `[1]`. -/
theorem add_message_always_ok_witness :
    processAddMessage [1, 10, 0, 0, 1, 35, 40] ∅ =
      ([1], addDestination ∅
        { ip := msgIpText [1, 10, 0, 0, 1, 35, 40],
          port := msgPort [1, 10, 0, 0, 1, 35, 40] }) :=
  add_message_always_ok _ _ (by norm_num) (by decide)

/-! ## Claim C4: behaviour when the TX ring is full -/

/-- C4 counterexample: on a valid open queue with a buildable packet, a
reserve that returns 0 (ring full) makes the attempt return `false` with no
fallback — `sendSinglePacketDirect` returns `false` rather than throwing, so
the catch-and-fall-back path never runs. -/
theorem ring_full_no_fallback_cex :
    sendToDestinationWithQueue 0 4 true true
        { closedSocket := false, packetLen := 70, reserveRet := 0 } =
      (false, SendPath.droppedRingFull) ∧
    SendPath.droppedRingFull ≠ SendPath.fallbackSendto := by
  exact ⟨rfl, by decide⟩

/-- C4 amended: on an in-range queue with an open socket, a ring-full
reserve yields `(false, droppedRingFull)` with no fallback; the
conventional-socket fallback is used exactly when the queue id is out of
range, the queue's socket is missing, or the direct path throws (socket
closed). -/
theorem direct_send_ring_full_drops (queueId numQueues : Int)
    (socketPresent fallbackSendOk : Bool) (env : DirectSendEnv) :
    (0 ≤ queueId → queueId < numQueues → socketPresent = true →
      env.closedSocket = false → env.packetLen ≠ 0 → env.reserveRet = 0 →
      sendToDestinationWithQueue queueId numQueues socketPresent
          fallbackSendOk env = (false, SendPath.droppedRingFull)) ∧
    ((sendToDestinationWithQueue queueId numQueues socketPresent
        fallbackSendOk env).2 = SendPath.fallbackSendto ↔
      queueId < 0 ∨ numQueues ≤ queueId ∨ socketPresent = false ∨
        env.closedSocket = true) := by
  by_cases hv : queueId < 0 ∨ numQueues ≤ queueId ∨ ¬socketPresent = true
  · constructor
    · intro h0 h1 hs _ _ _
      exfalso
      rcases hv with h | h | h
      · omega
      · omega
      · exact h hs
    · unfold sendToDestinationWithQueue
      rw [if_pos hv]
      constructor
      · intro _
        rcases hv with h | h | h
        · exact Or.inl h
        · exact Or.inr (Or.inl h)
        · exact Or.inr (Or.inr (Or.inl (by simpa using h)))
      · intro _
        rfl
  · unfold sendToDestinationWithQueue sendSinglePacketDirect
    rw [if_neg hv]
    push_neg at hv
    obtain ⟨hq0, hq1, hs⟩ := hv
    by_cases hc : env.closedSocket = true
    · rw [if_pos hc]
      constructor
      · intro _ _ _ hopen
        rw [hopen] at hc
        cases hc
      · simp only []
        constructor
        · intro _
          exact Or.inr (Or.inr (Or.inr hc))
        · intro _
          trivial
    · rw [if_neg hc]
      have hcf : env.closedSocket = false := by
        cases h : env.closedSocket
        · rfl
        · exact absurd h hc
      constructor
      · intro _ _ _ _ hp hr
        rw [if_neg hp, if_pos (by omega)]
      · by_cases hp : env.packetLen = 0
        · rw [if_pos hp]
          simp only []
          constructor
          · intro h
            cases h
          · rintro (h | h | h | h)
            · omega
            · omega
            · rw [hs] at h
              cases h
            · exact absurd h hc
        · rw [if_neg hp]
          by_cases hr : env.reserveRet ≠ 1
          · rw [if_pos hr]
            simp only []
            constructor
            · intro h
              cases h
            · rintro (h | h | h | h)
              · omega
              · omega
              · rw [hs] at h
                cases h
              · exact absurd h hc
          · rw [if_neg hr]
            simp only []
            constructor
            · intro h
              cases h
            · rintro (h | h | h | h)
              · omega
              · omega
              · rw [hs] at h
                cases h
              · exact absurd h hc

/-- C4 witness: the amended theorem at queue 1 of 4, open socket, 50-byte
packet, ring full. -/
theorem direct_send_ring_full_drops_witness :
    sendToDestinationWithQueue 1 4 true true
        { closedSocket := false, packetLen := 50, reserveRet := 0 } =
      (false, SendPath.droppedRingFull) :=
  (direct_send_ring_full_drops 1 4 true true
      { closedSocket := false, packetLen := 50, reserveRet := 0 }).1
    (by norm_num) (by norm_num) rfl rfl (by norm_num) rfl

/-! ## Claim C9: frame recycling -/

/-- C9 counterexample: after a `receive` records address 8192, a
`recycleFrames` call that finds the fill ring full (no free slots) clears
the pending list without returning the address to the fill ring — the frame
is dropped, not recycled. -/
theorem recycle_drops_when_fill_full_cex :
    receive { pending_recycle_addrs := [], fillRing := [] } [(8192, 60)] 64 =
      ({ pending_recycle_addrs := [8192], fillRing := [] }, [(8192, 60)]) ∧
    recycleFrames { pending_recycle_addrs := [8192], fillRing := [] } 0 true =
      ({ pending_recycle_addrs := [], fillRing := [] }, false) := by
  exact ⟨rfl, rfl⟩

/-- C9 amended: `receive` records exactly the peeked frame addresses; when
the fill-ring reservation succeeds (free capacity at least the batch),
`recycleFrames` appends every recorded address — masked by `extract_addr` —
to the fill ring in order, pokes the fill ring exactly when the need-wakeup
flag is set, and clears the list; when the reservation fails it clears the
list without returning anything. -/
theorem recycleFrames_returns_recorded (s t : RxState)
    (descs : List (Nat × Nat)) (maxEntries fqSpace : Nat)
    (needsWakeup : Bool) (hne : descs.take maxEntries ≠ [])
    (hpend : t.pending_recycle_addrs ≠ []) :
    (receive s descs maxEntries).1.pending_recycle_addrs =
      (descs.take maxEntries).map Prod.fst ∧
    (t.pending_recycle_addrs.length ≤ fqSpace →
      recycleFrames t fqSpace needsWakeup =
        ({ pending_recycle_addrs := [],
           fillRing := t.fillRing ++
             t.pending_recycle_addrs.map extractAddr }, needsWakeup)) ∧
    (fqSpace < t.pending_recycle_addrs.length →
      recycleFrames t fqSpace needsWakeup =
        ({ t with pending_recycle_addrs := [] }, false)) := by
  refine ⟨?_, ?_, ?_⟩
  · unfold receive
    rw [if_neg (by simpa using hne)]
  · intro hsp
    unfold recycleFrames
    rw [if_neg (by simpa using hpend), if_pos hsp, List.take_length]
  · intro hsp
    unfold recycleFrames
    rw [if_neg (by simpa using hpend), if_neg (by omega)]

/-- C9 witness: one received frame, fill ring with room, wakeup flagged. -/
theorem recycleFrames_returns_recorded_witness :
    (receive { pending_recycle_addrs := [], fillRing := [] }
        [(8192, 60)] 64).1.pending_recycle_addrs = [8192] ∧
    recycleFrames { pending_recycle_addrs := [8192], fillRing := [] } 10
        true =
      ({ pending_recycle_addrs := [], fillRing := [8192] }, true) := by
  have h := recycleFrames_returns_recorded
    { pending_recycle_addrs := [], fillRing := [] }
    { pending_recycle_addrs := [8192], fillRing := [] }
    [(8192, 60)] 64 10 true (by decide) (by decide)
  exact ⟨h.1, h.2.1 (by decide)⟩

/-! ## TX invariant lemmas -/

/-- The invariant holds in the zeroed initial state. -/
theorem txInv_init : TxInv TxState.init := by
  unfold TxInv TxState.init
  norm_num

/-- `pollTxCompletions` preserves the TX invariant. -/
theorem txInv_poll {s : TxState} (h : TxInv s) : TxInv (pollTxCompletions s) := by
  obtain ⟨h1, h2, h3⟩ := h
  unfold TxInv pollTxCompletions TX_FRAMES TX_BATCH_SIZE
  split
  · exact ⟨h1, h2, h3⟩
  split
  · exact ⟨h1, h2, h3⟩
  split
  · refine ⟨?_, ?_, ?_⟩ <;> simp <;> omega
  · refine ⟨?_, ?_, ?_⟩ <;> simp <;> omega

/-- `submitTxRing` preserves the TX invariant. -/
theorem txInv_submit {s : TxState} (count : Nat) (h : TxInv s) :
    TxInv (submitTxRing s count) := by
  obtain ⟨h1, h2, h3⟩ := h
  unfold TxInv submitTxRing
  refine ⟨?_, ?_, ?_⟩ <;> simp <;> omega

/-- A kernel completion event preserves the TX invariant. -/
theorem txInv_complete {s : TxState} (n : Nat) (h : TxInv s) :
    TxInv (completeTx s n) := by
  obtain ⟨h1, h2, h3⟩ := h
  unfold TxInv completeTx
  refine ⟨?_, ?_, ?_⟩ <;> simp <;> omega

/-- A successful `sendBatch` leaves the invariant intact. -/
theorem txInv_sendBatch {s s1 : TxState} {a : BatchArgs} {r : Nat}
    (hsb : sendBatch s a = .ok (r, s1)) (h : TxInv s) : TxInv s1 := by
  unfold sendBatch at hsb
  split at hsb
  · cases hsb
  split at hsb
  · injection hsb with h2
    injection h2 with hr hs1
    subst hs1
    exact txInv_poll h
  split at hsb
  · injection hsb with h2
    injection h2 with hr hs1
    subst hs1
    exact txInv_poll h
  split at hsb
  · injection hsb with h2
    injection h2 with hr hs1
    subst hs1
    exact txInv_submit _ (txInv_poll h)
  · injection hsb with h2
    injection h2 with hr hs1
    subst hs1
    exact txInv_poll h

/-- Every TX-history step preserves the TX invariant. -/
theorem txInv_step {s : TxState} (op : TxOp) (h : TxInv s) :
    TxInv (txStep s op) := by
  cases op with
  | submit count => exact txInv_submit count h
  | poll => exact txInv_poll h
  | complete n => exact txInv_complete n h
  | batch a =>
    show TxInv (match sendBatch s a with
      | .ok (_, s1) => s1
      | .error _ => s)
    rcases hsb : sendBatch s a with e | ⟨r, s1⟩
    · exact h
    · exact txInv_sendBatch hsb h

/-- The invariant holds after any TX history from any invariant state. -/
theorem txInv_foldl (ops : List TxOp) :
    ∀ s, TxInv s → TxInv (ops.foldl txStep s) := by
  induction ops with
  | nil => exact fun s h => h
  | cons op tl ih => exact fun s h => ih _ (txInv_step op h)

/-! ## Claim C6: outstanding_tx accounting -/

/-- C6 confirmed: after every history of submit, sendBatch, poll and kernel
completion events, `outstanding_tx` equals total descriptors submitted minus
total completion-ring entries released; and one `pollTxCompletions` call
either releases nothing and leaves `outstanding_tx` unchanged, or releases a
cached batch `r ≥ TX_BATCH_SIZE` and decrements `outstanding_tx` by exactly
`r`. -/
theorem outstanding_tx_accounting (ops : List TxOp) (s : TxState)
    (hinv : TxInv s) :
    ((runTxOps ops).outstanding_tx =
       (runTxOps ops).submittedTotal - (runTxOps ops).releasedTotal ∧
     (runTxOps ops).releasedTotal ≤ (runTxOps ops).submittedTotal) ∧
    ((pollTxCompletions s).releasedTotal = s.releasedTotal ∧
       (pollTxCompletions s).outstanding_tx = s.outstanding_tx ∨
     ∃ r, TX_BATCH_SIZE ≤ r ∧ r ≤ s.outstanding_tx ∧
       (pollTxCompletions s).releasedTotal = s.releasedTotal + r ∧
       (pollTxCompletions s).outstanding_tx = s.outstanding_tx - r) := by
  constructor
  · have h := txInv_foldl ops TxState.init txInv_init
    exact ⟨h.2.2, h.2.1⟩
  · obtain ⟨h1, h2, h3⟩ := hinv
    unfold pollTxCompletions TX_FRAMES TX_BATCH_SIZE
    split
    · exact Or.inl ⟨rfl, rfl⟩
    split
    · exact Or.inl ⟨rfl, rfl⟩
    split
    · exact Or.inl ⟨rfl, rfl⟩
    · exact Or.inr ⟨s.cached_completions + min s.cqAvail 2048, by omega,
        by omega, rfl, rfl⟩

/-- C6 witness: a short history (submit 70, complete 70, poll — which
releases the 70 cached completions) and a concrete invariant state on which
the poll dichotomy applies. -/
theorem outstanding_tx_accounting_witness :
    TxInv { outstanding_tx := 100, cached_completions := 0, inflight := 30,
            cqAvail := 70, submittedTotal := 100, releasedTotal := 0 } ∧
    ((runTxOps [.submit 70, .complete 70, .poll]).outstanding_tx =
       (runTxOps [.submit 70, .complete 70, .poll]).submittedTotal -
         (runTxOps [.submit 70, .complete 70, .poll]).releasedTotal) := by
  refine ⟨by decide, ?_⟩
  exact (outstanding_tx_accounting [.submit 70, .complete 70, .poll]
    { outstanding_tx := 100, cached_completions := 0, inflight := 30,
      cqAvail := 70, submittedTotal := 100, releasedTotal := 0 }
    (by decide)).1.1

/-! ## Claim C5: sendBatch TX back-pressure -/

/-- C5 confirmed: `sendBatch` polls completions first, and whenever the
post-poll `outstanding_tx` exceeds `TX_FRAMES - TX_BATCH_SIZE` it returns 0
with the post-poll state — nothing reserved or submitted — and, from any
reachable state with at most `TX_FRAMES` outstanding, that poll released
nothing, so `outstanding_tx`, the submitted total and the released total are
all unchanged by the call. -/
theorem sendBatch_backpressure (s : TxState) (a : BatchArgs)
    (hoff : a.batchSize ≤ a.offsetsLen) (hlen : a.batchSize ≤ a.lengthsLen)
    (hinv : TxInv s) (hcap : s.outstanding_tx ≤ TX_FRAMES)
    (hfull : (pollTxCompletions s).outstanding_tx >
      TX_FRAMES - TX_BATCH_SIZE) :
    sendBatch s a = .ok (0, pollTxCompletions s) ∧
    (pollTxCompletions s).outstanding_tx = s.outstanding_tx ∧
    (pollTxCompletions s).submittedTotal = s.submittedTotal ∧
    (pollTxCompletions s).releasedTotal = s.releasedTotal := by
  have hsend : sendBatch s a = .ok (0, pollTxCompletions s) := by
    unfold sendBatch
    rw [if_neg (by omega), if_pos hfull]
  refine ⟨hsend, ?_⟩
  obtain ⟨h1, h2, h3⟩ := hinv
  by_cases c1 : s.outstanding_tx = 0
  · have hp : pollTxCompletions s = s := by
      unfold pollTxCompletions
      rw [if_pos c1]
    rw [hp]
    exact ⟨rfl, rfl, rfl⟩
  by_cases c2 : min s.cqAvail TX_FRAMES = 0
  · have hp : pollTxCompletions s = s := by
      unfold pollTxCompletions
      rw [if_neg c1, if_pos c2]
    rw [hp]
    exact ⟨rfl, rfl, rfl⟩
  by_cases c3 : s.cached_completions + min s.cqAvail TX_FRAMES <
      TX_BATCH_SIZE
  · have hp : pollTxCompletions s = { s with
        cached_completions := s.cached_completions + min s.cqAvail TX_FRAMES,
        cqAvail := s.cqAvail - min s.cqAvail TX_FRAMES } := by
      unfold pollTxCompletions
      rw [if_neg c1, if_neg c2, if_pos c3]
    rw [hp]
    exact ⟨rfl, rfl, rfl⟩
  · exfalso
    have hp : pollTxCompletions s = { s with
        cached_completions := 0,
        cqAvail := s.cqAvail - min s.cqAvail TX_FRAMES,
        outstanding_tx := s.outstanding_tx -
          (s.cached_completions + min s.cqAvail TX_FRAMES),
        releasedTotal := s.releasedTotal +
          (s.cached_completions + min s.cqAvail TX_FRAMES) } := by
      unfold pollTxCompletions
      rw [if_neg c1, if_neg c2, if_neg c3]
    rw [hp] at hfull
    simp at hfull
    unfold TX_FRAMES TX_BATCH_SIZE at hfull c3
    unfold TX_FRAMES at hcap
    omega

/-- C5 witness: 2000 outstanding descriptors, nothing on the completion
ring; the post-poll outstanding count 2000 exceeds 1984, so `sendBatch`
refuses and changes nothing. -/
theorem sendBatch_backpressure_witness :
    TxInv { outstanding_tx := 2000, cached_completions := 0,
            inflight := 2000, cqAvail := 0, submittedTotal := 2000,
            releasedTotal := 0 } ∧
    sendBatch
        { outstanding_tx := 2000, cached_completions := 0, inflight := 2000,
          cqAvail := 0, submittedTotal := 2000, releasedTotal := 0 }
        { offsetsLen := 64, lengthsLen := 64, batchSize := 64,
          ringFree := 100 } =
      .ok (0, pollTxCompletions
        { outstanding_tx := 2000, cached_completions := 0, inflight := 2000,
          cqAvail := 0, submittedTotal := 2000, releasedTotal := 0 }) := by
  refine ⟨by decide, ?_⟩
  exact (sendBatch_backpressure
    { outstanding_tx := 2000, cached_completions := 0, inflight := 2000,
      cqAvail := 0, submittedTotal := 2000, releasedTotal := 0 }
    { offsetsLen := 64, lengthsLen := 64, batchSize := 64, ringFree := 100 }
    (by decide) (by decide) (by decide) (by decide) (by decide)).1

/-! ## Claim C7: the IPv4 header checksum is self-consistent -/

/-- The word reader halves the byte count. -/
theorem words16LE_length : ∀ l : List Nat,
    (words16LE l).length = l.length / 2
  | [] => rfl
  | [a] => by simp [words16LE]
  | a :: b :: rest => by
    show (words16LE rest).length + 1 = _
    rw [words16LE_length rest]
    simp only [List.length_cons]
    omega

/-- The first ten header bytes. -/
theorem ipHdrPre_length (payloadLen : Nat) :
    (ipHdrPre payloadLen).length = 10 := by
  unfold ipHdrPre be16
  rfl

/-- The parsed destination address is always four bytes. -/
theorem destIpBytes_length (d : Destination) :
    (destIpBytes d).length = 4 := by
  unfold destIpBytes
  rcases h : atonGroups d.ip with - | ⟨b0, b1, b2, b3⟩ <;> simp

/-- Splitting the word sum of a header at the checksum field. -/
theorem words16LE_header_split (env : PacketEnv) (d : Destination)
    (payloadLen u v : Nat) :
    words16LE (ipHdrPre payloadLen ++ [u, v] ++ ipHdrAddrs env d) =
      words16LE (ipHdrPre payloadLen) ++
        ((u + 256 * v) :: words16LE (ipHdrAddrs env d)) := by
  rw [List.append_assoc,
    words16LE_append _ _ (by rw [ipHdrPre_length])]
  rfl

/-- C7 confirmed: the finished IPv4 header written by `createUdpPacket` has
ten 16-bit words, and their one's-complement sum — checksum field included —
folds to 0xFFFF. -/
theorem ipv4_checksum_folds_to_ffff (env : PacketEnv) (d : Destination)
    (payloadLen : Nat) (hsi : env.srcIp.length = 4) :
    (words16LE (ipHeaderBytes env d payloadLen)).length = 10 ∧
    fold16 (words16LE (ipHeaderBytes env d payloadLen)).sum = 65535 := by
  have haddr : (ipHdrAddrs env d).length = 8 := by
    unfold ipHdrAddrs
    rw [List.length_append, hsi, destIpBytes_length]
  constructor
  · rw [words16LE_length]
    unfold ipHeaderBytes
    rw [List.length_append, List.length_append, ipHdrPre_length, haddr]
    norm_num
  · unfold ipHeaderBytes
    rw [words16LE_header_split, List.sum_append, List.sum_cons]
    have hS : (words16LE (ipHeaderZeroCk env d payloadLen)).sum =
        (words16LE (ipHdrPre payloadLen)).sum +
          (words16LE (ipHdrAddrs env d)).sum := by
      unfold ipHeaderZeroCk
      rw [words16LE_header_split, List.sum_append, List.sum_cons]
      omega
    obtain ⟨hf1, hf2, ⟨a, ha⟩, -⟩ :=
      fold16_spec (words16LE (ipHeaderZeroCk env d payloadLen)).sum
    have hc : ipCheckValue env d payloadLen =
        65535 - fold16 (words16LE (ipHeaderZeroCk env d payloadLen)).sum :=
      rfl
    have hrw : (words16LE (ipHdrPre payloadLen)).sum +
        (ipCheckValue env d payloadLen % 256 +
          256 * (ipCheckValue env d payloadLen / 256) +
          (words16LE (ipHdrAddrs env d)).sum) =
        (words16LE (ipHeaderZeroCk env d payloadLen)).sum +
          (65535 - fold16 (words16LE (ipHeaderZeroCk env d payloadLen)).sum) := by
      omega
    rw [hrw]
    apply fold16_eq_ffff
    · omega
    · exact ⟨a + 1, by omega⟩

/-- C7 witness: the checksum theorem at a concrete environment,
destination 10.0.0.20:9100 and payload length 5. -/
theorem ipv4_checksum_folds_to_ffff_witness :
    (words16LE (ipHeaderBytes samplePacketEnv sampleDest20 5)).length = 10 ∧
    fold16 (words16LE (ipHeaderBytes samplePacketEnv sampleDest20 5)).sum =
      65535 :=
  ipv4_checksum_folds_to_ffff samplePacketEnv sampleDest20 5 rfl

/-! ## Claim C8: the synthesized frame -/

/-- A list of length four is a literal quadruple. -/
theorem list_length_four {α : Type u} : ∀ {l : List α}, l.length = 4 →
    ∃ b0 b1 b2 b3, l = [b0, b1, b2, b3]
  | [b0, b1, b2, b3], _ => ⟨b0, b1, b2, b3, rfl⟩
  | [], h => by simp only [List.length_nil] at h; omega
  | [_], h => by simp only [List.length_cons, List.length_nil] at h; omega
  | [_, _], h => by simp only [List.length_cons, List.length_nil] at h; omega
  | [_, _, _], h => by
    simp only [List.length_cons, List.length_nil] at h; omega
  | _ :: _ :: _ :: _ :: _ :: _, h => by
    simp only [List.length_cons] at h; omega

/-- A list of length six is a literal sextuple. -/
theorem list_length_six {α : Type u} : ∀ {l : List α}, l.length = 6 →
    ∃ b0 b1 b2 b3 b4 b5, l = [b0, b1, b2, b3, b4, b5]
  | [b0, b1, b2, b3, b4, b5], _ => ⟨b0, b1, b2, b3, b4, b5, rfl⟩
  | [], h => by simp only [List.length_nil] at h; omega
  | [_], h => by simp only [List.length_cons, List.length_nil] at h; omega
  | [_, _], h => by simp only [List.length_cons, List.length_nil] at h; omega
  | [_, _, _], h => by
    simp only [List.length_cons, List.length_nil] at h; omega
  | [_, _, _, _], h => by
    simp only [List.length_cons, List.length_nil] at h; omega
  | [_, _, _, _, _], h => by
    simp only [List.length_cons, List.length_nil] at h; omega
  | _ :: _ :: _ :: _ :: _ :: _ :: _ :: _, h => by
    simp only [List.length_cons] at h; omega

/-- C8 counterexample: a payload of 65536 bytes into a 70000-byte buffer
satisfies the claim's `payloadLen ≤ bufferSize - 42` premise, yet the 16-bit
IPv4 total-length field of the written frame holds `(28 + 65536) mod 65536 =
28`, not the claimed `28 + payloadLen`. -/
theorem createUdpPacket_length_wrap_cex :
    bigPayload.length ≤ 70000 - 42 ∧
    (createUdpPacket samplePacketEnv sampleDest20 bigPayload 70000).map
        (fun f => f.getD 16 0 * 256 + f.getD 17 0) = some 28 ∧
    (28 : Nat) ≠ 28 + bigPayload.length := by
  have hlen : bigPayload.length = 65536 := by
    rw [bigPayload, List.length_replicate]
  have hout : createUdpPacket samplePacketEnv sampleDest20 bigPayload 70000 =
      some (ethHeaderBytes samplePacketEnv ++
        ipHeaderBytes samplePacketEnv sampleDest20 65536 ++
        udpHeaderBytes samplePacketEnv sampleDest20 65536 ++
        bigPayload) := by
    unfold createUdpPacket
    rw [if_neg (by rw [hlen]; norm_num), hlen]
  refine ⟨by rw [hlen]; norm_num, ?_, by rw [hlen]; norm_num⟩
  rw [hout]
  have h16 : (ethHeaderBytes samplePacketEnv ++
      ipHeaderBytes samplePacketEnv sampleDest20 65536 ++
      udpHeaderBytes samplePacketEnv sampleDest20 65536 ++
      bigPayload).getD 16 0 = (20 + 8 + 65536) / 256 % 256 := rfl
  have h17 : (ethHeaderBytes samplePacketEnv ++
      ipHeaderBytes samplePacketEnv sampleDest20 65536 ++
      udpHeaderBytes samplePacketEnv sampleDest20 65536 ++
      bigPayload).getD 17 0 = (20 + 8 + 65536) % 256 := rfl
  show some ((ethHeaderBytes samplePacketEnv ++
      ipHeaderBytes samplePacketEnv sampleDest20 65536 ++
      udpHeaderBytes samplePacketEnv sampleDest20 65536 ++
      bigPayload).getD 16 0 * 256 + (ethHeaderBytes samplePacketEnv ++
      ipHeaderBytes samplePacketEnv sampleDest20 65536 ++
      udpHeaderBytes samplePacketEnv sampleDest20 65536 ++
      bigPayload).getD 17 0) = some 28
  rw [h16, h17]

set_option maxRecDepth 4096 in
/-- C8 amended: for payloads small enough that the 16-bit IPv4/UDP length
fields do not wrap (`28 + payloadLen < 65536`), a payload that fits the
buffer yields a frame matching the claimed layout byte for byte, and a
payload with `42 + payloadLen` exceeding the buffer is refused. -/
theorem createUdpPacket_fields (env : PacketEnv) (d : Destination)
    (payload : List Nat) (bufferSize : Nat)
    (hdm : env.dstMac.length = 6) (hsm : env.srcMac.length = 6)
    (hsi : env.srcIp.length = 4) (hlp : env.listenPort < 65536)
    (hdp : d.port < 65536) (hfit : 28 + payload.length < 65536) :
    (42 + payload.length ≤ bufferSize →
      ∃ frame, createUdpPacket env d payload bufferSize = some frame ∧
        SynthesizedFrameSpec env d payload frame) ∧
    (bufferSize < 42 + payload.length →
      createUdpPacket env d payload bufferSize = none) := by
  obtain ⟨m0, m1, m2, m3, m4, m5, hdmE⟩ := list_length_six hdm
  obtain ⟨s0, s1, s2, s3, s4, s5, hsmE⟩ := list_length_six hsm
  obtain ⟨p0, p1, p2, p3, hsiE⟩ := list_length_four hsi
  obtain ⟨i0, i1, i2, i3, hipE⟩ := list_length_four (destIpBytes_length d)
  constructor
  · intro hbuf
    have hF : ethHeaderBytes env ++ ipHeaderBytes env d payload.length ++
        udpHeaderBytes env d payload.length ++ payload =
        [m0, m1, m2, m3, m4, m5, s0, s1, s2, s3, s4, s5, 8, 0,
         69, 0, (20 + 8 + payload.length) / 256 % 256,
         (20 + 8 + payload.length) % 256, 48, 57, 0, 0, 64, 17,
         ipCheckValue env d payload.length % 256,
         ipCheckValue env d payload.length / 256,
         p0, p1, p2, p3, i0, i1, i2, i3,
         env.listenPort / 256 % 256, env.listenPort % 256,
         d.port / 256 % 256, d.port % 256,
         (8 + payload.length) / 256 % 256, (8 + payload.length) % 256,
         0, 0] ++ payload := by
      rw [ethHeaderBytes, ipHeaderBytes, udpHeaderBytes, ipHdrPre,
        ipHdrAddrs, be16, be16, be16, be16, be16, hdmE, hsmE, hsiE, hipE]
      simp only [List.cons_append, List.nil_append, List.append_assoc]
    have hout : createUdpPacket env d payload bufferSize =
        some ([m0, m1, m2, m3, m4, m5, s0, s1, s2, s3, s4, s5, 8, 0,
          69, 0, (20 + 8 + payload.length) / 256 % 256,
          (20 + 8 + payload.length) % 256, 48, 57, 0, 0, 64, 17,
          ipCheckValue env d payload.length % 256,
          ipCheckValue env d payload.length / 256,
          p0, p1, p2, p3, i0, i1, i2, i3,
          env.listenPort / 256 % 256, env.listenPort % 256,
          d.port / 256 % 256, d.port % 256,
          (8 + payload.length) / 256 % 256, (8 + payload.length) % 256,
          0, 0] ++ payload) := by
      unfold createUdpPacket
      rw [if_neg (by omega), hF]
    refine ⟨_, hout, ?_, rfl, rfl, rfl, rfl, ?_, ?_, rfl, rfl, rfl, rfl,
      ?_, ?_, ?_, ?_, ?_, rfl, rfl, rfl⟩
    · rw [List.length_append]
      norm_num
    · show (20 + 8 + payload.length) / 256 % 256 * 256 +
          (20 + 8 + payload.length) % 256 = 28 + payload.length
      omega
    · show (48 : Nat) * 256 + 57 = 12345
      norm_num
    · rw [hsiE]
      rfl
    · rw [hipE]
      rfl
    · show env.listenPort / 256 % 256 * 256 + env.listenPort % 256 =
        env.listenPort
      omega
    · show d.port / 256 % 256 * 256 + d.port % 256 = d.port
      omega
    · show (8 + payload.length) / 256 % 256 * 256 +
          (8 + payload.length) % 256 = 8 + payload.length
      omega
  · intro hbuf
    unfold createUdpPacket
    rw [if_pos (by omega)]

/-- C8 witness: a two-byte payload into a 4096-byte frame. -/
theorem createUdpPacket_fields_witness :
    ∃ frame,
      createUdpPacket samplePacketEnv sampleDest20 [104, 105] 4096 =
        some frame ∧
      SynthesizedFrameSpec samplePacketEnv sampleDest20 [104, 105] frame :=
  (createUdpPacket_fields samplePacketEnv sampleDest20 [104, 105] 4096
    rfl rfl rfl (by decide) (by decide) (by norm_num)).1 (by norm_num)

end AfXdpReplicator
